import Mathlib

/-!
Verification of the NexoraSwap quote-aggregation core.

Shallow embedding of the quote orchestration code:
  - src/app/api/quote/route.ts   (orchestrator, error classifier, disambiguation probe)
  - src/lib/server/minAmount.ts  (minimum-amount resolver, 1inch endpoint-shape detection)
  - src/lib/server/cache.ts      (ephemeral TTL cache)

JavaScript bigints are modelled as Nat (all amounts in the code are non-negative),
timestamps as Nat milliseconds, and network calls as explicit function parameters
giving each call its outcome.  Floating-point USD conversions (usdToUnits) are
idealised as exact rational arithmetic with the same rounding rule as toFixed.
-/

set_option autoImplicit false

namespace Nexora

/-- The error taxonomy of src/lib/types.ts (QuoteErrorReason). -/
inductive QuoteErrorReason where
  | MIN_AMOUNT
  | NO_LIQUIDITY
  | TIMEOUT
  | OTHER
deriving DecidableEq, Repr

open QuoteErrorReason

/-- Prefix test on character lists (helper for the substring test). -/
def isPrefixList : List Char → List Char → Bool
  | [], _ => true
  | _ :: _, [] => false
  | p :: ps, c :: cs => (p == c) && isPrefixList ps cs

/-- Substring search on character lists. -/
def lcContains (pat : List Char) : List Char → Bool
  | [] => pat.isEmpty
  | c :: cs => isPrefixList pat (c :: cs) || lcContains pat cs

/-- JavaScript substring test, as in the s.includes(pat) calls of route.ts. -/
def strContains (s pat : String) : Bool :=
  lcContains pat.data s.data

/-- ASCII lowercasing of one character.  All keyword patterns and failure texts
the classifier inspects are ASCII, so this matches the toLowerCase calls. -/
def asciiLower (c : Char) : Char :=
  if 65 ≤ c.toNat ∧ c.toNat ≤ 90 then Char.ofNat (c.toNat + 32) else c

/-- ASCII lowercasing of a string (the toLowerCase in route.ts). -/
def lowerStr (s : String) : String :=
  ⟨s.data.map asciiLower⟩

/-- route.ts isMinAmountLike: keyword set for amount-too-low failures. -/
def isMinAmountLike (s : String) : Bool :=
  strContains s "amount too low" || strContains s "too low" ||
  strContains s "min amount" || strContains s "minimum amount" ||
  strContains s "below the minimum" || strContains s "return amount is not enough" ||
  strContains s "insufficient input"

/-- route.ts isNoQuoteLike: keyword set for no-route / no-quote failures. -/
def isNoQuoteLike (s : String) : Bool :=
  strContains s "no available quotes" || strContains s "no route" ||
  strContains s "no quote" || strContains s "no_quote" ||
  strContains s "no routes found"

/-- route.ts isUnfixableForBiggerAmount: signals a larger amount cannot fix. -/
def isUnfixableForBiggerAmount (s : String) : Bool :=
  strContains s "buy or sell tax" || strContains s "tax above acceptable threshold" ||
  strContains s "fee on transfer" || strContains s "transfer fee"

/-- The timeout-text test that route.ts baseReason applies first. -/
def hasTimeoutText (s : String) : Bool :=
  strContains s "timed out" || strContains s "timeout" || strContains s "time out"

/-- route.ts baseReason: fixed-precedence keyword classification of a failure,
fed the raw response text and the human-readable summary. -/
def baseReason (raw human : String) : QuoteErrorReason :=
  let s := lowerStr (raw ++ " " ++ human)
  if hasTimeoutText s then TIMEOUT
  else if isMinAmountLike s then MIN_AMOUNT
  else if isUnfixableForBiggerAmount s then NO_LIQUIDITY
  else if isNoQuoteLike s || strContains s "liquidity" then NO_LIQUIDITY
  else OTHER

/-- The shape route.ts isTimeoutError inspects on a thrown error value:
HTTP-like status, the payload reason field, the error name, and the message. -/
structure JsError where
  status : Option Nat := none
  payloadReason : Option String := none
  name : String := ""
  message : String := ""
deriving DecidableEq, Repr

/-- route.ts isTimeoutError. -/
def isTimeoutError (e : JsError) : Bool :=
  (e.status == some 504) || (e.payloadReason == some "TIMEOUT") ||
  (e.name == "AbortError") ||
  strContains (lowerStr e.message) "timed out" || strContains (lowerStr e.message) "aborted"

/-- Outcome of one Promise.allSettled slot in disambiguateNoQuote: the okFn
either fulfilled with a boolean (quote with positive output or not) or rejected
with an error value. -/
inductive ProbeOutcome where
  | fulfilled (value : Bool)
  | rejected (e : JsError)
deriving DecidableEq, Repr

/-- A settled probe that fulfilled with true (route.ts anyOk test). -/
def probeOk : ProbeOutcome → Bool
  | ProbeOutcome.fulfilled b => b
  | ProbeOutcome.rejected _ => false

/-- A settled probe that was rejected with a timeout (route.ts anyTimeout test). -/
def probeTimeout : ProbeOutcome → Bool
  | ProbeOutcome.fulfilled _ => false
  | ProbeOutcome.rejected e => isTimeoutError e

/-- The decision taken on the settled probes in route.ts disambiguateNoQuote
(lines after Promise.allSettled): any success wins, then any timeout, else the
NO_LIQUIDITY candidate stands. -/
def disDecision (outcomes : List ProbeOutcome) : QuoteErrorReason :=
  if outcomes.any probeOk then MIN_AMOUNT
  else if outcomes.any probeTimeout then TIMEOUT
  else NO_LIQUIDITY

/-- route.ts disambiguateNoQuote: probe amounts are mapped through the trial
quote function okFn; an empty probe list returns NO_LIQUIDITY without probing. -/
def disambiguateNoQuote (okFn : Nat → ProbeOutcome) (probes : List Nat) : QuoteErrorReason :=
  if probes.isEmpty then NO_LIQUIDITY
  else disDecision (probes.map okFn)

/-- The failure-classification pipeline shared by both error paths of route.ts
POST (the oneinch-direct catch block and the LI.FI non-ok branch): text
classification, then the unconditional cached-minimum override, then the guarded
disambiguation override, and finally the retryable flag.  The parameter dis is
the result of the disambiguation probe, shouldDis the USD-threshold guard. -/
def classifyAndFlag (raw human : String) (fromAmount : Nat) (cachedMin : Option Nat)
    (shouldDis : Bool) (dis : QuoteErrorReason) : QuoteErrorReason × Bool :=
  let s := lowerStr (raw ++ " " ++ human)
  let r0 := baseReason raw human
  let r1 :=
    match cachedMin with
    | some m => if fromAmount < m then MIN_AMOUNT else r0
    | none => r0
  let r2 :=
    if (r1 == NO_LIQUIDITY) && isNoQuoteLike s && !(isUnfixableForBiggerAmount s) && shouldDis then
      (if dis == MIN_AMOUNT || dis == TIMEOUT then dis else r1)
    else r1
  let retryable := (r2 == NO_LIQUIDITY) && isNoQuoteLike s && !(isUnfixableForBiggerAmount s)
  (r2, retryable)

/-- The process-wide map of src/lib/server/cache.ts, with absolute expiry
timestamps in milliseconds. -/
def Cache (α : Type) : Type := String → Option (α × Nat)

/-- cache.ts cacheGet: a hit past its expiry is removed and reported as a miss.
Returns the looked-up value together with the cache state after the call. -/
def cacheGet {α : Type} (now : Nat) (key : String) (c : Cache α) : Option α × Cache α :=
  match c key with
  | none => (none, c)
  | some (v, exp) =>
      if exp < now then (none, fun k => if k = key then none else c k)
      else (some v, c)

/-- cache.ts cacheSet: unconditional overwrite with expiry now + ttl. -/
def cacheSet {α : Type} (now : Nat) (key : String) (v : α) (ttlMs : Nat) (c : Cache α) : Cache α :=
  fun k => if k = key then some (v, now + ttlMs) else c k

/-! ## Minimum-amount resolver (src/lib/server/minAmount.ts computeMinAmountHint)

The trial quote function ok gives each candidate amount its outcome; the code
maps a thrown exception to false, so ok is total.  The resolver returns the raw
fromAmount of the produced MinAmountHint, or none when unresolved. -/

/-- The 8 exponential-phase candidates: the requested amount times 10^i. -/
def expCandidates (start : Nat) : List Nat :=
  (List.range 8).map fun i => start * 10 ^ i

/-- results.findIndex(Boolean) of minAmount.ts: index of the first success. -/
def findIdxFirst (p : Nat → Bool) : List Nat → Option Nat
  | [] => none
  | x :: xs => if p x then some 0 else (findIdxFirst p xs).map (· + 1)

/-- The probed amount of one binary-phase iteration: the floor midpoint, bumped
to lo + 1 when it does not exceed the lower bound. -/
def binProbe (lo hi : Nat) : Nat :=
  let mid := (lo + hi) / 2
  if mid ≤ lo then lo + 1 else mid

/-- One iteration of the binary phase; the break when the probe reaches the
upper bound is modelled as the identity (the state then never changes again). -/
def binStep (ok : Nat → Bool) (s : Nat × Nat) : Nat × Nat :=
  let m := binProbe s.1 s.2
  if s.2 ≤ m then s
  else if ok m then (s.1, m) else (m, s.2)

/-- The binary phase, at most MAX_BIN = 6 iterations. -/
def binaryPhase (ok : Nat → Bool) : Nat → Nat × Nat → Nat × Nat
  | 0, s => s
  | Nat.succ n, s => binaryPhase ok n (binStep ok s)

/-- minAmount.ts computeMinAmountHint, reduced to the raw amount of the hint it
produces: exponential phase over 8 concurrent candidates, then binary search in
(lo, hi]; the hint carries the final upper bound.  A non-positive or unparsable
start returns none, as does an exponential phase with no success. -/
def computeMinAmountHint (ok : Nat → Bool) (start : Nat) : Option Nat :=
  if start = 0 then none
  else
    let candidates := expCandidates start
    match findIdxFirst ok candidates with
    | none => none
    | some idx =>
        let lo := if idx = 0 then start else candidates.getD (idx - 1) 0
        let hi := candidates.getD idx 0
        some (binaryPhase ok 6 (lo, hi)).2

/-! ## 1inch endpoint path auto-detection (oneInchFetch in route.ts and
minAmount.ts, with the per-base ONEINCH_PREFIX_CACHE)

The network is a function from the attempted path shape to an HTTP status. -/

/-- The two path shapes a 1inch deployment may mount: bare, or under /swap. -/
inductive Pfx where
  | bare
  | swap
deriving DecidableEq, Repr

/-- The alternative shape to a given one. -/
def otherPfx : Pfx → Pfx
  | Pfx.bare => Pfx.swap
  | Pfx.swap => Pfx.bare

/-- The candidate order oneInchFetch tries for one base URL: the remembered
shape first when one is cached, else bare then /swap. -/
def pfxList : Option Pfx → List Pfx
  | none => [Pfx.bare, Pfx.swap]
  | some c => [c, otherPfx c]

/-- The loop of oneInchFetch: skip a 404 and keep it as the last response,
otherwise record the working shape and return.  Result is the returned status
together with the shape-cache state after the call. -/
def fetchLoop (resp : Pfx → Nat) (cache : Option Pfx) : List Pfx → Nat → Nat × Option Pfx
  | [], last => (last, cache)
  | p :: rest, _ =>
      let r := resp p
      if r = 404 then fetchLoop resp cache rest r
      else (r, some p)

/-- oneInchFetch for one base URL, given the current shape-cache entry. -/
def oneInchFetch (resp : Pfx → Nat) (cache : Option Pfx) : Nat × Option Pfx :=
  fetchLoop resp cache (pfxList cache) 0

/-! ## Orchestrator routing (route.ts POST, after request validation)

Adapter network outcomes are passed in: oneinchNet is the outcome the 1inch
adapter would obtain for a same-chain call (the normalized output amount on
success), lifiNet the Bridge-Swap outcome.  The cross-chain throw at the top of
oneInchQuote is part of the dispatch model. -/

/-- The routing modes of src/lib/types.ts RouterId. -/
inductive RouterId where
  | auto
  | lifiSmart
  | lifiUniswap
  | lifi1inch
  | lifiPancake
  | oneinchDirect
  | uniswapSubgraphOnly
  | gaszip
deriving DecidableEq, Repr

/-- The startsWith lifi test that route.ts applies to the router id. -/
def isLifiRouter : RouterId → Bool
  | RouterId.lifiSmart => true
  | RouterId.lifiUniswap => true
  | RouterId.lifi1inch => true
  | RouterId.lifiPancake => true
  | _ => false

/-- Which adapter produced a response. -/
inductive Adapter where
  | oneinch
  | lifi
deriving DecidableEq, Repr

/-- The orchestrator outcome: a quote from one adapter with its output amount,
a classified error response built on one adapter path, or the
router-not-implemented rejection. -/
inductive PostOutcome where
  | quote (a : Adapter) (toAmount : Nat)
  | errorResponse (a : Adapter)
  | notImplemented
deriving DecidableEq, Repr

/-- The LI.FI leg at the bottom of POST. -/
def lifiLeg (lifiNet : Option Nat) : PostOutcome :=
  match lifiNet with
  | some amt => PostOutcome.quote Adapter.lifi amt
  | none => PostOutcome.errorResponse Adapter.lifi

/-- The dispatch structure of POST: auto same-chain tries the 1inch adapter
first and falls through to LI.FI only when it fails; an explicit oneinch-direct
request never reaches LI.FI (its catch block answers directly); unknown routers
are rejected; everything else goes to LI.FI. -/
def postDispatch (router : RouterId) (fromChainId toChainId : Nat)
    (oneinchNet : Option Nat) (lifiNet : Option Nat) : PostOutcome :=
  let oneinchAdapter : Option Nat :=
    if fromChainId = toChainId then oneinchNet else none
  if router = RouterId.auto ∧ fromChainId = toChainId then
    match oneinchAdapter with
    | some amt => PostOutcome.quote Adapter.oneinch amt
    | none => lifiLeg lifiNet
  else if router = RouterId.oneinchDirect then
    match oneinchAdapter with
    | some amt => PostOutcome.quote Adapter.oneinch amt
    | none => PostOutcome.errorResponse Adapter.oneinch
  else if !(isLifiRouter router || router == RouterId.auto) then
    PostOutcome.notImplemented
  else lifiLeg lifiNet

/-! ## Probe-amount construction (route.ts usdToUnits and buildProbeAmounts)

usdToUnits converts a USD target to raw token units through the token price.
The floating-point arithmetic of the source is idealised as exact rational
arithmetic; toFixed rounding (nearest, ties up) becomes the floor of x + 1/2. -/

theorem findIdxFirst_isSome_of_mem {p : Nat → Bool} {l : List Nat} {x : Nat}
    (hx : x ∈ l) (hp : p x = true) : (findIdxFirst p l).isSome = true := by
  induction l with
  | nil => cases hx
  | cons y ys ih =>
      by_cases hy : p y
      · simp [findIdxFirst, hy]
      · rcases List.mem_cons.mp hx with rfl | hmem
        · exact absurd hp hy
        · simp only [findIdxFirst, if_neg hy]
          have hsome := ih hmem
          cases hfi : findIdxFirst p ys with
          | none => rw [hfi] at hsome; cases hsome
          | some j => simp [hfi]

theorem findIdxFirst_eq_none {p : Nat → Bool} {l : List Nat}
    (h : ∀ x ∈ l, p x = false) : findIdxFirst p l = none := by
  induction l with
  | nil => rfl
  | cons y ys ih =>
      have hy : p y = false := h y (List.mem_cons_self y ys)
      have hys : findIdxFirst p ys = none := ih fun x hx => h x (List.mem_cons_of_mem y hx)
      simp [findIdxFirst, hy, hys]

theorem findIdxFirst_getD {p : Nat → Bool} {l : List Nat} {i : Nat}
    (h : findIdxFirst p l = some i) : p (l.getD i 0) = true := by
  induction l generalizing i with
  | nil => cases h
  | cons y ys ih =>
      by_cases hy : p y
      · simp only [findIdxFirst, if_pos hy] at h
        cases h
        simpa using hy
      · simp only [findIdxFirst, if_neg hy, Option.map_eq_some'] at h
        rcases h with ⟨j, hj, rfl⟩
        simpa using ih hj

theorem binaryPhase_snd_ok (ok : Nat → Bool) :
    ∀ (n : Nat) (s : Nat × Nat), ok s.2 = true → ok (binaryPhase ok n s).2 = true := by
  intro n
  induction n with
  | zero => intro s h; exact h
  | succ m ih =>
      intro s h
      refine ih (binStep ok s) ?_
      unfold binStep
      by_cases h1 : s.2 ≤ binProbe s.1 s.2
      · simpa [h1] using h
      · by_cases h2 : ok (binProbe s.1 s.2) = true
        · simp [h1, h2]
        · simpa [h1, h2] using h

theorem disambiguateNoQuote_nonempty (okFn : Nat → ProbeOutcome) {l : List Nat}
    (h : l.isEmpty = false) :
    disambiguateNoQuote okFn l = disDecision (l.map okFn) := by
  unfold disambiguateNoQuote
  simp [h]

/-- Claim C1, counterexample.  The claim asserts the exponential phase finds a
succeeding candidate whenever M is at most the initial amount times 10 to the 8.
With initial amount 1 and threshold M = 10 to the 8 that bound holds, yet the
largest of the 8 candidates is 10 to the 7, every trial fails, and
computeMinAmountHint returns none. -/
theorem exp_phase_bound_cx :
    ((10 : Nat) ^ 8 ≤ 1 * 10 ^ 8) ∧
    computeMinAmountHint (fun x => decide (10 ^ 8 ≤ x)) 1 = none := by
  constructor
  · norm_num
  · decide

/-- Claim C1 (amended).  For a threshold provider that accepts exactly the
amounts at least M, the resolver finds a succeeding exponential candidate
precisely when M is at most the initial amount times 10 to the 7 (the largest
of the 8 candidates); when no candidate succeeds it returns none, a missing
hint rather than an error. -/
theorem exp_phase_threshold (M start : Nat) (h : 0 < start) :
    ((computeMinAmountHint (fun x => decide (M ≤ x)) start).isSome = true ↔
      M ≤ start * 10 ^ 7) ∧
    (computeMinAmountHint (fun x => decide (M ≤ x)) start = none ↔
      start * 10 ^ 7 < M) := by
  have hs : start ≠ 0 := h.ne'
  have hmem : start * 10 ^ 7 ∈ expCandidates start := by
    simp only [expCandidates, List.mem_map, List.mem_range]
    exact ⟨7, by norm_num, rfl⟩
  have hsome : M ≤ start * 10 ^ 7 →
      (computeMinAmountHint (fun x => decide (M ≤ x)) start).isSome = true := by
    intro hM
    have his := findIdxFirst_isSome_of_mem (p := fun x => decide (M ≤ x)) hmem (by simpa using hM)
    cases hfi : findIdxFirst (fun x => decide (M ≤ x)) (expCandidates start) with
    | none => rw [hfi] at his; cases his
    | some idx => simp [computeMinAmountHint, hs, hfi]
  have hnone : start * 10 ^ 7 < M →
      computeMinAmountHint (fun x => decide (M ≤ x)) start = none := by
    intro hM
    have hall : ∀ x ∈ expCandidates start, (fun x => decide (M ≤ x)) x = false := by
      intro x hx
      simp only [expCandidates, List.mem_map, List.mem_range] at hx
      rcases hx with ⟨i, hi, rfl⟩
      have hle : start * 10 ^ i ≤ start * 10 ^ 7 :=
        Nat.mul_le_mul_left _ (Nat.pow_le_pow_right (by norm_num) (by omega))
      simp only [decide_eq_false_iff_not]
      omega
    have hfi := findIdxFirst_eq_none hall
    simp only [computeMinAmountHint, if_neg hs, hfi]
  constructor
  · constructor
    · intro hi
      by_contra hnle
      push_neg at hnle
      rw [hnone hnle] at hi
      cases hi
    · exact hsome
  · constructor
    · intro hn
      by_contra hnlt
      push_neg at hnlt
      have hi := hsome hnlt
      rw [hn] at hi
      cases hi
    · exact hnone

/-- Witness for exp_phase_threshold at M = 1000, start = 3. -/
theorem exp_phase_threshold_witness :
    ((computeMinAmountHint (fun x => decide (1000 ≤ x)) 3).isSome = true ↔
      1000 ≤ 3 * 10 ^ 7) ∧
    (computeMinAmountHint (fun x => decide (1000 ≤ x)) 3 = none ↔
      3 * 10 ^ 7 < 1000) :=
  exp_phase_threshold 1000 3 (by decide)

/-- Claim C6.  For a threshold provider accepting exactly the amounts at least
M, any hint the resolver returns carries an amount confirmed to succeed (at
least M): the binary phase starts from a succeeding upper bound and only ever
moves it down to probes that succeeded, and the hint is the final upper bound.
Moreover each binary iteration with lo + 1 < hi probes an amount strictly
between the bounds (the floor midpoint, bumped above the lower bound). -/
theorem binary_phase_confirms (M start r lo hi : Nat)
    (hr : computeMinAmountHint (fun x => decide (M ≤ x)) start = some r)
    (hlh : lo + 1 < hi) :
    M ≤ r ∧ lo < binProbe lo hi ∧ binProbe lo hi < hi := by
  refine ⟨?_, ?_, ?_⟩
  · by_cases hs : start = 0
    · simp [computeMinAmountHint, hs] at hr
    · cases hfi : findIdxFirst (fun x => decide (M ≤ x)) (expCandidates start) with
      | none => simp [computeMinAmountHint, hs, hfi] at hr
      | some idx =>
          simp only [computeMinAmountHint, if_neg hs, hfi, Option.some_inj] at hr
          have hinv := binaryPhase_snd_ok (fun x => decide (M ≤ x)) 6
            (if idx = 0 then start else (expCandidates start).getD (idx - 1) 0,
              (expCandidates start).getD idx 0) (findIdxFirst_getD hfi)
          rw [hr] at hinv
          exact of_decide_eq_true hinv
  · simp only [binProbe]
    split <;> omega
  · simp only [binProbe]
    split <;> omega

/-- Witness for binary_phase_confirms: with threshold 5 and start 1 the
resolver returns the exact minimum 5. -/
theorem binary_phase_confirms_witness :
    (5 : Nat) ≤ 5 ∧ 2 < binProbe 2 10 ∧ binProbe 2 10 < 10 :=
  binary_phase_confirms 5 1 5 2 10 (by decide) (by decide)

/-- Claim C5.  On every non-empty probe list the disambiguation follows the
fixed priority: any successful probe gives MIN_AMOUNT, otherwise any timed-out
rejection gives TIMEOUT, otherwise the NO_LIQUIDITY classification stands (the
if-chain equation, for arbitrary probe outcomes); and, in particular, whenever
every probe times out the result is TIMEOUT, never NO_LIQUIDITY. -/
theorem disambiguation_decision (okFn : Nat → ProbeOutcome) (probes : List Nat)
    (hne : probes.isEmpty = false) :
    disambiguateNoQuote okFn probes =
      (if (probes.map okFn).any probeOk then MIN_AMOUNT
       else if (probes.map okFn).any probeTimeout then TIMEOUT
       else NO_LIQUIDITY) ∧
    ((probes.map okFn).all probeTimeout = true →
      disambiguateNoQuote okFn probes = TIMEOUT) := by
  have heq := disambiguateNoQuote_nonempty okFn hne
  refine ⟨by rw [heq]; rfl, ?_⟩
  intro hall
  have hmapne : probes.map okFn ≠ [] := by
    cases probes with
    | nil => simp at hne
    | cons a l => simp
  have hok : (probes.map okFn).any probeOk = false := by
    rw [List.any_eq_false]
    intro o ho
    have ht := (List.all_eq_true.mp hall) o ho
    cases o with
    | fulfilled b => simp [probeTimeout] at ht
    | rejected e => simp [probeOk]
  have htime : (probes.map okFn).any probeTimeout = true := by
    cases hm : probes.map okFn with
    | nil => exact absurd hm hmapne
    | cons o l =>
        have ht := (List.all_eq_true.mp hall) o (by rw [hm]; exact List.mem_cons_self o l)
        simp [List.any_cons, ht]
  rw [heq]
  unfold disDecision
  rw [hok, htime]
  rfl

/-- Witness for disambiguation_decision: two probes, both rejected with a 504
timeout, satisfy the decision equation and are reclassified TIMEOUT. -/
theorem disambiguation_decision_witness :
    (disambiguateNoQuote (fun _ => ProbeOutcome.rejected { status := some 504 }) [1, 2] =
      (if ([1, 2].map (fun _ => ProbeOutcome.rejected { status := some 504 })).any probeOk
        then MIN_AMOUNT
        else if ([1, 2].map (fun _ =>
            ProbeOutcome.rejected { status := some 504 })).any probeTimeout
          then TIMEOUT
          else NO_LIQUIDITY)) ∧
    disambiguateNoQuote (fun _ => ProbeOutcome.rejected { status := some 504 }) [1, 2] =
      TIMEOUT :=
  ⟨(disambiguation_decision (fun _ => ProbeOutcome.rejected { status := some 504 }) [1, 2]
      (by decide)).1,
   (disambiguation_decision (fun _ => ProbeOutcome.rejected { status := some 504 }) [1, 2]
      (by decide)).2 (by decide)⟩

/-- Claim C4, counterexample.  The claim asserts a timeout-tagged failure is
always finally classified TIMEOUT, with the cached-minimum comparison applying
only in the non-timeout case.  The adapter timeout error (status 504, payload
reason TIMEOUT, message Quote request timed out) is timeout-tagged, yet with a
cached minimum of 100 and a requested amount of 5 the pipeline finally
classifies it MIN_AMOUNT: the cache comparison runs unconditionally after the
text classification and overrides its TIMEOUT result. -/
theorem timeout_tag_cx :
    hasTimeoutText (lowerStr
      (" \x7b\x22reason\x22:\x22TIMEOUT\x22\x7d" ++ " " ++ "Quote request timed out")) = true ∧
    baseReason " \x7b\x22reason\x22:\x22TIMEOUT\x22\x7d" "Quote request timed out" = TIMEOUT ∧
    (classifyAndFlag " \x7b\x22reason\x22:\x22TIMEOUT\x22\x7d" "Quote request timed out"
        5 (some 100) true NO_LIQUIDITY).1 = MIN_AMOUNT ∧
    ((classifyAndFlag " \x7b\x22reason\x22:\x22TIMEOUT\x22\x7d" "Quote request timed out"
        5 (some 100) true NO_LIQUIDITY).1 == TIMEOUT) = false := by
  refine ⟨by decide, by decide, by decide, by decide⟩

/-- Claim C4 (amended).  A timeout-tagged failure is classified TIMEOUT by the
text classifier ahead of every other pattern, and stays TIMEOUT through the
pipeline when no cached minimum applies; but the cached-minimum comparison runs
unconditionally afterwards, so with a cached minimum m and a requested amount
below m the final reason is MIN_AMOUNT even for a timeout-tagged failure. -/
theorem timeout_tag_precedence (raw human : String) (amt m : Nat)
    (shouldDis : Bool) (dis : QuoteErrorReason)
    (ht : hasTimeoutText (lowerStr (raw ++ " " ++ human)) = true) :
    baseReason raw human = TIMEOUT ∧
    (classifyAndFlag raw human amt none shouldDis dis).1 = TIMEOUT ∧
    (classifyAndFlag raw human amt (some m) shouldDis dis).1 =
      (if amt < m then MIN_AMOUNT else TIMEOUT) := by
  have hb : baseReason raw human = TIMEOUT := by
    unfold baseReason
    rw [if_pos ht]
  refine ⟨hb, ?_, ?_⟩
  · unfold classifyAndFlag
    rw [hb]
    rfl
  · unfold classifyAndFlag
    rw [hb]
    by_cases hm : amt < m <;> simp [hm]

/-- Witness for timeout_tag_precedence at a concrete timeout failure text. -/
theorem timeout_tag_precedence_witness :
    baseReason "" "timed out" = TIMEOUT ∧
    (classifyAndFlag "" "timed out" 7 none true NO_LIQUIDITY).1 = TIMEOUT ∧
    (classifyAndFlag "" "timed out" 7 (some 10) true NO_LIQUIDITY).1 =
      (if 7 < 10 then MIN_AMOUNT else TIMEOUT) :=
  timeout_tag_precedence "" "timed out" 7 10 true NO_LIQUIDITY (by decide)

/-- Claim C8.  The retryable flag of an error response is exactly the
conjunction: final reason NO_LIQUIDITY, text matched the no-route keyword set,
and no unfixable (transfer-tax) signal present; consequently a failure finally
classified MIN_AMOUNT (in particular one reclassified by disambiguation) is
never retryable. -/
theorem retryable_flag (raw human : String) (amt : Nat) (cachedMin : Option Nat)
    (shouldDis : Bool) (dis : QuoteErrorReason) :
    ((classifyAndFlag raw human amt cachedMin shouldDis dis).2 =
      (((classifyAndFlag raw human amt cachedMin shouldDis dis).1 == NO_LIQUIDITY) &&
        isNoQuoteLike (lowerStr (raw ++ " " ++ human)) &&
        !(isUnfixableForBiggerAmount (lowerStr (raw ++ " " ++ human))))) ∧
    ((((classifyAndFlag raw human amt cachedMin shouldDis dis).1 == MIN_AMOUNT) &&
        (classifyAndFlag raw human amt cachedMin shouldDis dis).2) = false) := by
  refine ⟨rfl, ?_⟩
  rcases hcf : (classifyAndFlag raw human amt cachedMin shouldDis dis) with ⟨r2, flag⟩
  have hflag : flag = ((r2 == NO_LIQUIDITY) &&
      isNoQuoteLike (lowerStr (raw ++ " " ++ human)) &&
      !(isUnfixableForBiggerAmount (lowerStr (raw ++ " " ++ human)))) := by
    have := congrArg Prod.snd hcf
    simp only at this
    rw [← this]
    have h1 := congrArg Prod.fst hcf
    simp only at h1
    rw [← h1]
    rfl
  subst hflag
  cases r2 <;> simp

/-- Claim C2, counterexample.  The claim asserts that for same-chain auto
requests where both adapters succeed the orchestrator returns the numerically
larger output.  With the 1inch adapter producing 5 and the LI.FI adapter able
to produce 10, the dispatch returns the 1inch quote of 5: the 1inch result is
returned on its own success with no comparison against LI.FI. -/
theorem auto_pick_larger_cx :
    postDispatch RouterId.auto 1 1 (some 5) (some 10) =
      PostOutcome.quote Adapter.oneinch 5 ∧
    postDispatch RouterId.auto 1 1 (some 5) (some 10) ≠
      PostOutcome.quote Adapter.lifi 10 ∧
    (5 : Nat) < 10 := by
  refine ⟨by decide, by decide, by decide⟩

/-- Claim C2 (amended).  For same-chain auto requests the orchestrator tries
the Direct-Swap (1inch) adapter first and returns its quote whenever it
succeeds, regardless of what the Bridge-Swap adapter would return; only when
the 1inch attempt fails does it fall through to LI.FI and return that result
(or the LI.FI-path error response when LI.FI also fails). -/
theorem auto_first_success (c amt : Nat) (lifiNet : Option Nat) :
    postDispatch RouterId.auto c c (some amt) lifiNet =
      PostOutcome.quote Adapter.oneinch amt ∧
    postDispatch RouterId.auto c c none (some amt) =
      PostOutcome.quote Adapter.lifi amt ∧
    postDispatch RouterId.auto c c none none =
      PostOutcome.errorResponse Adapter.lifi := by
  refine ⟨?_, ?_, ?_⟩ <;> simp [postDispatch, lifiLeg]

/-- Claim C3, counterexample.  The claim asserts every cross-chain request is
served by the Bridge-Swap adapter regardless of mode, including an explicit
oneinch-direct request.  An explicit oneinch-direct request across chains 1 and
137 instead yields the error response of the Direct-Swap path (the adapter
rejects cross-chain and the catch block answers), even when LI.FI could have
produced a quote of 999. -/
theorem oneinch_direct_cross_cx :
    postDispatch RouterId.oneinchDirect 1 137 (some 5) (some 999) =
      PostOutcome.errorResponse Adapter.oneinch ∧
    postDispatch RouterId.oneinchDirect 1 137 (some 5) (some 999) ≠
      PostOutcome.quote Adapter.lifi 999 := by
  refine ⟨by decide, by decide⟩

/-- Claim C3 (amended).  Cross-chain requests in auto mode or any lifi mode are
served by the Bridge-Swap adapter; an explicit oneinch-direct cross-chain
request is instead answered by the Direct-Swap error path without reaching the
Bridge-Swap adapter. -/
theorem cross_chain_routing (fc tc : Nat) (r : RouterId)
    (oneinchNet lifiNet : Option Nat)
    (hcc : fc ≠ tc) (hl : isLifiRouter r = true) :
    postDispatch RouterId.auto fc tc oneinchNet lifiNet = lifiLeg lifiNet ∧
    postDispatch r fc tc oneinchNet lifiNet = lifiLeg lifiNet ∧
    postDispatch RouterId.oneinchDirect fc tc oneinchNet lifiNet =
      PostOutcome.errorResponse Adapter.oneinch := by
  refine ⟨?_, ?_, ?_⟩
  · simp [postDispatch, hcc]
  · cases r <;> simp_all [postDispatch, isLifiRouter, hcc]
  · simp [postDispatch, hcc]

/-- Witness for cross_chain_routing at chains 1 and 137 with router lifiSmart. -/
theorem cross_chain_routing_witness :
    postDispatch RouterId.auto 1 137 (some 3) (some 9) = lifiLeg (some 9) ∧
    postDispatch RouterId.lifiSmart 1 137 (some 3) (some 9) = lifiLeg (some 9) ∧
    postDispatch RouterId.oneinchDirect 1 137 (some 3) (some 9) =
      PostOutcome.errorResponse Adapter.oneinch :=
  cross_chain_routing 1 137 RouterId.lifiSmart (some 3) (some 9) (by decide) (by decide)

/-- Claim C7.  Cache round-trip and sticky expiry: a set followed by a get at
the same instant returns the value; once the TTL has elapsed the get misses and
deletes the entry, so any later get on the returned cache state also misses;
and a set unconditionally overwrites whatever any cache held under the key. -/
theorem cache_roundtrip_sticky {α : Type} (k : String) (v v2 : α)
    (ttl ttl2 t t2 t3 t4 : Nat) (c m : Cache α)
    (httl : 0 < ttl) (hexp : t + ttl < t2) :
    (cacheGet t k (cacheSet t k v ttl c)).1 = some v ∧
    (cacheGet t2 k (cacheSet t k v ttl c)).1 = none ∧
    (cacheGet t3 k (cacheGet t2 k (cacheSet t k v ttl c)).2).1 = none ∧
    (cacheGet t4 k (cacheSet t4 k v2 ttl2 m)).1 = some v2 := by
  have hset : (cacheSet t k v ttl c) k = some (v, t + ttl) := by
    simp [cacheSet]
  refine ⟨?_, ?_, ?_, ?_⟩
  · simp only [cacheGet, hset]
    rw [if_neg (by omega)]
  · simp only [cacheGet, hset]
    rw [if_pos (by omega)]
  · simp only [cacheGet, hset]
    rw [if_pos (by omega)]
    simp
  · have hset2 : (cacheSet t4 k v2 ttl2 m) k = some (v2, t4 + ttl2) := by
      simp [cacheSet]
    simp only [cacheGet, hset2]
    rw [if_neg (by omega)]

/-- Witness for cache_roundtrip_sticky with a 1000 ms TTL, expiry observed at
t = 1001, and an overwrite of a previously set key. -/
theorem cache_roundtrip_sticky_witness :
    (cacheGet 0 "min:auto:1:1:a:b" (cacheSet 0 "min:auto:1:1:a:b" (11 : Nat) 1000
      (fun _ => none))).1 = some 11 ∧
    (cacheGet 1001 "min:auto:1:1:a:b" (cacheSet 0 "min:auto:1:1:a:b" (11 : Nat) 1000
      (fun _ => none))).1 = none ∧
    (cacheGet 3 "min:auto:1:1:a:b" (cacheGet 1001 "min:auto:1:1:a:b"
      (cacheSet 0 "min:auto:1:1:a:b" (11 : Nat) 1000 (fun _ => none))).2).1 = none ∧
    (cacheGet 50 "min:auto:1:1:a:b" (cacheSet 50 "min:auto:1:1:a:b" (22 : Nat) 5
      (cacheSet 0 "min:auto:1:1:a:b" (11 : Nat) 120000 (fun _ => none)))).1 = some 22 :=
  cache_roundtrip_sticky "min:auto:1:1:a:b" 11 22 1000 5 0 1001 3 50
    (fun _ => none) (cacheSet 0 "min:auto:1:1:a:b" 11 120000 (fun _ => none))
    (by decide) (by decide)

/-- Claim C9.  The 1inch endpoint-shape detection: with no remembered shape the
bare shape is tried first and the swap shape second; with a remembered shape
that one is tried first; the second candidate is consulted exactly when the
first answers 404; any non-404 answer records its shape in the per-base cache
(so every subsequent call for the base tries it first); and when both answer
404 the cache is left unchanged and the last 404 is returned. -/
theorem pfx_detection (resp : Pfx → Nat) (cached : Option Pfx) (p : Pfx) :
    pfxList (some p) = [p, otherPfx p] ∧
    pfxList none = [Pfx.bare, Pfx.swap] ∧
    oneInchFetch resp cached =
      (let p1 := (pfxList cached).getD 0 Pfx.bare
       let p2 := (pfxList cached).getD 1 Pfx.swap
       if resp p1 = 404 then
         (if resp p2 = 404 then (404, cached) else (resp p2, some p2))
       else (resp p1, some p1)) := by
  refine ⟨rfl, rfl, ?_⟩
  cases cached with
  | none =>
      by_cases h1 : resp Pfx.bare = 404 <;> by_cases h2 : resp Pfx.swap = 404 <;>
        simp [oneInchFetch, fetchLoop, pfxList, h1, h2]
  | some q =>
      by_cases h1 : resp q = 404 <;> by_cases h2 : resp (otherPfx q) = 404 <;>
        simp [oneInchFetch, fetchLoop, pfxList, h1, h2]

end Nexora
